import Mathlib

/-!
Shallow embedding of the CrossCompileCppExample repository (src/include/utils.hpp
and src/src/main.cpp). Strings are modelled as lists of characters; the C++
`std::stoi` conversion is modelled faithfully, including its leading-whitespace
skipping, optional sign, base-10 digit consumption, the reported consumed
position, and the 32-bit `int` range check. Methods that may mutate state are
modelled by explicit state passing; `const` methods return the unchanged state
alongside their result. Exceptions are modelled with `Except`.
-/

namespace CrossCompileCpp

/-- Whitespace classification of the C locale `isspace`, used by `std::stoi`
via `strtol`: space, tab, newline, vertical tab, form feed, carriage return. -/
def cppIsSpace (c : Char) : Bool :=
  c == ' ' || c == '\t' || c == '\n' || c == Char.ofNat 11 || c == Char.ofNat 12 || c == '\r'

/-- Base-10 value of a list of digit characters, most significant first. -/
def digitsVal (ds : List Char) : Nat :=
  ds.foldl (fun acc c => acc * 10 + (c.toNat - 48)) 0

/-- Smallest value of the 32-bit C++ `int` returned by `std::stoi`. -/
def int_min : Int := -2147483648

/-- Largest value of the 32-bit C++ `int` returned by `std::stoi`. -/
def int_max : Int := 2147483647

/-- The two exceptions `std::stoi` can raise. -/
inductive StoiErr
  | invalidArgument
  | outOfRange
  deriving DecidableEq

/-- Optional leading sign of a numeral, as consumed by `strtol`:
returns the sign factor, the number of characters consumed, and the rest. -/
def signSplit : List Char → Int × Nat × List Char
  | [] => (1, 0, [])
  | c :: t =>
    if c = '-' then (-1, 1, t)
    else if c = '+' then (1, 1, t)
    else (1, 0, c :: t)

/-- Model of `int std::stoi(const std::string&, size_t* pos)` with base 10:
skip leading whitespace, consume an optional sign and then a maximal run of
decimal digits; raise `invalidArgument` when no digit is consumed, raise
`outOfRange` when the signed value does not fit in a 32-bit `int`; on success
return the value together with the number of characters consumed. -/
def stoi (s : List Char) : Except StoiErr (Int × Nat) :=
  let ws := s.takeWhile cppIsSpace
  let r1 := s.drop ws.length
  let sp := signSplit r1
  let ds := sp.2.2.takeWhile Char.isDigit
  if ds = [] then .error .invalidArgument
  else
    let v : Int := sp.1 * (digitsVal ds : Int)
    if v < int_min ∨ int_max < v then .error .outOfRange
    else .ok (v, ws.length + sp.2.1 + ds.length)

/-- C++ `utils::NumberResult`: a pair of the parsed value and an error message. -/
abbrev NumberResult := Int × String

/-- C++ `utils::parse_number`: call `stoi`, map its exceptions to the error
messages "Invalid argument" and "Out of range", fail with "Not all characters
were used in conversion" when the conversion did not consume the whole input,
and otherwise return the value with an empty error message. -/
def parse_number (input : List Char) : NumberResult :=
  match stoi input with
  | .error .invalidArgument => (0, "Invalid argument")
  | .error .outOfRange => (0, "Out of range")
  | .ok (result, pos) =>
    if pos ≠ input.length then (0, "Not all characters were used in conversion")
    else (result, "")

/-- C++ `utils::has_error`: `!result.second.empty()`. -/
def has_error (result : NumberResult) : Bool :=
  !result.2.isEmpty

/-- C++ `utils::get_error`: the stored error message. -/
def get_error (result : NumberResult) : String :=
  result.2

/-- C++ `utils::get_value`: the stored value, or a thrown `std::runtime_error`
carrying the error message when the result has an error. -/
def get_value (result : NumberResult) : Except String Int :=
  if has_error result then .error result.2
  else .ok result.1

/-- C++ `utils::Container<T>`: wraps a `std::vector<T>` named `data`. -/
structure Container (T : Type) where
  data : List T

/-- The linear scan of `Container::contains`, carrying the current index. -/
def containsAux {T : Type} [DecidableEq T] (value : T) : List T → Nat → Bool × Nat
  | [], _ => (false, 0)
  | x :: xs, i => if x = value then (true, i) else containsAux value xs (i + 1)

/-- C++ `Container::add`: `data.push_back(value)`. -/
def Container.add {T : Type} (c : Container T) (value : T) : Container T :=
  ⟨c.data ++ [value]⟩

/-- C++ `Container::contains` (a `const` method, so the state is returned
unchanged): scan `data` from index 0 and return `(true, i)` at the first
element equal to `value`, or `(false, 0)` after the loop. -/
def Container.contains {T : Type} [DecidableEq T] (c : Container T) (value : T) :
    (Bool × Nat) × Container T :=
  (containsAux value c.data 0, c)

/-- C++ `utils::get_compile_time_value`. -/
def get_compile_time_value : Int := 42

/-- C++ `utils::get_runtime_value`. -/
def get_runtime_value : Int := 43

/-- C++ `ModernCppDemo` from main.cpp: wraps a `std::vector<std::string>`. -/
structure ModernCppDemo where
  data : List String
  deriving DecidableEq

/-- C++ `ModernCppDemo::size`. -/
def ModernCppDemo.size (d : ModernCppDemo) : Nat :=
  d.data.length

/-- C++ `ModernCppDemo::transform_all`: replace each `item` with `pre + item`. -/
def ModernCppDemo.transform_all (d : ModernCppDemo) (pre : String) : ModernCppDemo :=
  ⟨d.data.map (fun item => pre ++ item)⟩

/-- C++ `ModernCppDemo::add_if_not_exists`: `std::find` is the same
first-match linear scan as `containsAux`; when the item is found return its
index with `false`, otherwise push the item and return the new index
`data.size() - 1` with `true`. -/
def ModernCppDemo.add_if_not_exists (d : ModernCppDemo) (item : String) :
    (Nat × Bool) × ModernCppDemo :=
  match containsAux item d.data 0 with
  | (true, i) => ((i, false), d)
  | (false, _) => ((d.data.length, true), ⟨d.data ++ [item]⟩)

/-- C++ `ModernCppDemo::get_at` (a `const` method): the element at `index`
when `index < data.size()`, otherwise `std::nullopt`. -/
def ModernCppDemo.get_at (d : ModernCppDemo) (index : Nat) : Option String :=
  if h : index < d.data.length then some (d.data.get ⟨index, h⟩)
  else none

/-- Sign factor denoted by an optional sign string: `-1` for "-", else `1`. -/
def signOf (sgn : List Char) : Int :=
  if sgn = ['-'] then -1 else 1

/-! ### Helper lemmas -/

lemma takeWhile_append_all {α : Type} {p : α → Bool} {l₁ l₂ : List α}
    (h : ∀ a ∈ l₁, p a = true) :
    (l₁ ++ l₂).takeWhile p = l₁ ++ l₂.takeWhile p := by
  induction l₁ with
  | nil => simp
  | cons x xs ih =>
    simp only [List.cons_append, List.takeWhile_cons, h x (by simp), if_true]
    rw [ih (fun a ha => h a (by simp [ha]))]

lemma takeWhile_eq_nil_of_head {α : Type} {p : α → Bool} {l : List α}
    (h : ∀ c, l.head? = some c → p c = false) :
    l.takeWhile p = [] := by
  cases l with
  | nil => rfl
  | cons x xs => simp [List.takeWhile_cons, h x rfl]

lemma containsAux_spec {T : Type} [DecidableEq T] (v : T) :
    ∀ (l : List T) (i : Nat),
      (v ∈ l → ∃ k, containsAux v l i = (true, i + k) ∧ k < l.length ∧
        l.get? k = some v ∧ ∀ j, j < k → l.get? j ≠ some v) ∧
      (v ∉ l → containsAux v l i = (false, 0)) := by
  intro l
  induction l with
  | nil => intro i; exact ⟨fun h => absurd h (List.not_mem_nil v), fun _ => rfl⟩
  | cons x xs ih =>
    intro i
    by_cases hx : x = v
    · refine ⟨fun _ => ⟨0, ?_, ?_, ?_, ?_⟩, fun hmem => absurd (hx ▸ List.mem_cons_self x xs) hmem⟩
      · simp [containsAux, hx]
      · simp
      · simp [hx]
      · intro j hj; omega
    · constructor
      · intro hmem
        have hmem' : v ∈ xs := by
          rcases List.mem_cons.mp hmem with h | h
          · exact absurd h.symm hx
          · exact h
        obtain ⟨k, hk, hklen, hkget, hkmin⟩ := (ih (i + 1)).1 hmem'
        refine ⟨k + 1, ?_, ?_, ?_, ?_⟩
        · simp only [containsAux, hx, if_false]
          rw [hk]; congr 1; omega
        · simpa using Nat.succ_lt_succ hklen
        · simpa using hkget
        · intro j hj
          cases j with
          | zero => simp [hx]
          | succ j' => simpa using hkmin j' (by omega)
      · intro hmem
        have hx' : ¬(x = v) := hx
        have hmem' : v ∉ xs := fun h => hmem (List.mem_cons_of_mem x h)
        simp only [containsAux, hx', if_false]
        exact (ih (i + 1)).2 hmem'

lemma not_space_of_digit {c : Char} (h : c.isDigit = true) : cppIsSpace c = false := by
  rcases Bool.eq_false_or_eq_true (cppIsSpace c) with ht | hf
  · exfalso
    simp only [cppIsSpace, Bool.or_eq_true, beq_iff_eq] at ht
    rcases ht with ((((h1 | h1) | h1) | h1) | h1) | h1 <;> subst h1 <;>
      exact absurd h (by decide)
  · exact hf

lemma signSplit_minus (t : List Char) : signSplit ('-' :: t) = (-1, 1, t) := by
  show (if '-' = '-' then ((-1 : Int), 1, t) else if '-' = '+' then ((1 : Int), 1, t)
    else ((1 : Int), 0, '-' :: t)) = (-1, 1, t)
  rw [if_pos rfl]

lemma signSplit_plus (t : List Char) : signSplit ('+' :: t) = (1, 1, t) := by
  show (if '+' = '-' then ((-1 : Int), 1, t) else if '+' = '+' then ((1 : Int), 1, t)
    else ((1 : Int), 0, '+' :: t)) = (1, 1, t)
  rw [if_neg (by decide), if_pos rfl]

lemma signSplit_other {c : Char} (t : List Char) (h1 : c ≠ '-') (h2 : c ≠ '+') :
    signSplit (c :: t) = (1, 0, c :: t) := by
  show (if c = '-' then ((-1 : Int), 1, t) else if c = '+' then ((1 : Int), 1, t)
    else ((1 : Int), 0, c :: t)) = (1, 0, c :: t)
  rw [if_neg h1, if_neg h2]

lemma digit_ne_sign {c : Char} (h : c.isDigit = true) : c ≠ '-' ∧ c ≠ '+' := by
  constructor <;> rintro rfl <;> exact absurd h (by decide)

/-- Behaviour of the `stoi` model on an input decomposed into leading
whitespace, an optional sign, a nonempty digit run, and a trailing part that
does not start with a digit: the conversion consumes exactly the whitespace,
sign and digits, raising `outOfRange` when the signed value leaves the
32-bit range. -/
lemma stoi_spec (ws sgn ds rest : List Char)
    (hws : ∀ c ∈ ws, cppIsSpace c = true)
    (hs : sgn = [] ∨ sgn = ['+'] ∨ sgn = ['-'])
    (hds : ds ≠ [])
    (hd : ∀ c ∈ ds, c.isDigit = true)
    (hrest : ∀ c, rest.head? = some c → c.isDigit = false) :
    stoi (ws ++ sgn ++ ds ++ rest) =
      if signOf sgn * (digitsVal ds : Int) < int_min ∨
          int_max < signOf sgn * (digitsVal ds : Int)
      then .error .outOfRange
      else .ok (signOf sgn * (digitsVal ds : Int), ws.length + sgn.length + ds.length) := by
  obtain ⟨d, ds', rfl⟩ : ∃ d ds', ds = d :: ds' := by
    cases ds with
    | nil => exact absurd rfl hds
    | cons d ds' => exact ⟨d, ds', rfl⟩
  have hd0 : d.isDigit = true := hd d (by simp)
  have hdig : (d :: (ds' ++ rest)).takeWhile Char.isDigit = d :: ds' := by
    rw [← List.cons_append, takeWhile_append_all hd, takeWhile_eq_nil_of_head hrest,
      List.append_nil]
  rcases hs with rfl | rfl | rfl
  · have hhead : ∀ c, (d :: (ds' ++ rest)).head? = some c → cppIsSpace c = false := by
      intro c hc
      simp only [List.head?_cons, Option.some.injEq] at hc
      subst hc
      exact not_space_of_digit hd0
    rw [show ws ++ [] ++ (d :: ds') ++ rest = ws ++ (d :: (ds' ++ rest)) by simp]
    simp only [stoi]
    rw [takeWhile_append_all hws, takeWhile_eq_nil_of_head hhead, List.append_nil,
      List.drop_left]
    simp only [signSplit_other (ds' ++ rest) (digit_ne_sign hd0).1 (digit_ne_sign hd0).2, hdig]
    rw [if_neg (List.cons_ne_nil d ds')]
    simp [signOf]
  · have hhead : ∀ c, ('+' :: (d :: (ds' ++ rest))).head? = some c → cppIsSpace c = false := by
      intro c hc
      simp only [List.head?_cons, Option.some.injEq] at hc
      subst hc
      decide
    rw [show ws ++ ['+'] ++ (d :: ds') ++ rest = ws ++ ('+' :: (d :: (ds' ++ rest))) by simp]
    simp only [stoi]
    rw [takeWhile_append_all hws, takeWhile_eq_nil_of_head hhead, List.append_nil,
      List.drop_left]
    simp only [signSplit_plus, hdig]
    rw [if_neg (List.cons_ne_nil d ds')]
    have h1 : signOf ['+'] = 1 := by decide
    simp [h1]
  · have hhead : ∀ c, ('-' :: (d :: (ds' ++ rest))).head? = some c → cppIsSpace c = false := by
      intro c hc
      simp only [List.head?_cons, Option.some.injEq] at hc
      subst hc
      decide
    rw [show ws ++ ['-'] ++ (d :: ds') ++ rest = ws ++ ('-' :: (d :: (ds' ++ rest))) by simp]
    simp only [stoi]
    rw [takeWhile_append_all hws, takeWhile_eq_nil_of_head hhead, List.append_nil,
      List.drop_left]
    simp only [signSplit_minus, hdig]
    rw [if_neg (List.cons_ne_nil d ds')]
    have h1 : signOf ['-'] = -1 := by decide
    simp [h1]

/-! ### Parser theorems -/

/-- C2: on an input that is an optional sign followed by one or more decimal
digits, whose signed value fits in a 32-bit `int`, `parse_number` returns
exactly that integer with an empty error message. -/
theorem parse_number_signed_digits (sgn ds : List Char)
    (hs : sgn = [] ∨ sgn = ['+'] ∨ sgn = ['-'])
    (hds : ds ≠ [])
    (hd : ∀ c ∈ ds, c.isDigit = true)
    (hlo : int_min ≤ signOf sgn * (digitsVal ds : Int))
    (hhi : signOf sgn * (digitsVal ds : Int) ≤ int_max) :
    parse_number (sgn ++ ds) = (signOf sgn * (digitsVal ds : Int), "") := by
  have hst := stoi_spec [] sgn ds [] (by simp) hs hds hd (by simp)
  rw [List.nil_append, List.append_nil] at hst
  have hnc : ¬(signOf sgn * (digitsVal ds : Int) < int_min ∨
      int_max < signOf sgn * (digitsVal ds : Int)) := by
    push_neg
    exact ⟨hlo, hhi⟩
  have hlen : ([] : List Char).length + sgn.length + ds.length = (sgn ++ ds).length := by
    simp
  simp only [parse_number, hst, if_neg hnc, if_neg (not_not_intro hlen)]

/-- Witness for C2 at the input "-42". -/
theorem parse_number_signed_digits_witness :
    parse_number (['-'] ++ ['4', '2']) = (signOf ['-'] * (digitsVal ['4', '2'] : Int), "") :=
  parse_number_signed_digits ['-'] ['4', '2'] (Or.inr (Or.inr rfl)) (by decide) (by decide)
    (by decide) (by decide)

/-- C3: on an input whose in-range optional-sign-and-digits prefix converts
but is followed by at least one unconsumed character (one that is not a
digit, so the digit run is maximal), `parse_number` fails with exactly
"Not all characters were used in conversion". -/
theorem parse_number_trailing (sgn ds rest : List Char)
    (hs : sgn = [] ∨ sgn = ['+'] ∨ sgn = ['-'])
    (hds : ds ≠ [])
    (hd : ∀ c ∈ ds, c.isDigit = true)
    (hrest : rest ≠ [])
    (hrest' : ∀ c, rest.head? = some c → c.isDigit = false)
    (hlo : int_min ≤ signOf sgn * (digitsVal ds : Int))
    (hhi : signOf sgn * (digitsVal ds : Int) ≤ int_max) :
    parse_number (sgn ++ ds ++ rest) = (0, "Not all characters were used in conversion") := by
  have hst := stoi_spec [] sgn ds rest (by simp) hs hds hd hrest'
  rw [List.nil_append] at hst
  have hnc : ¬(signOf sgn * (digitsVal ds : Int) < int_min ∨
      int_max < signOf sgn * (digitsVal ds : Int)) := by
    push_neg
    exact ⟨hlo, hhi⟩
  have hlen : ([] : List Char).length + sgn.length + ds.length ≠ (sgn ++ ds ++ rest).length := by
    have h0 : 0 < rest.length := List.length_pos.mpr hrest
    simp only [List.length_nil, List.length_append]
    omega
  simp only [parse_number, hst, if_neg hnc, if_pos hlen]

/-- Witness for C3 at the input "123abc". -/
theorem parse_number_trailing_witness :
    parse_number ([] ++ ['1', '2', '3'] ++ ['a', 'b', 'c']) =
      (0, "Not all characters were used in conversion") :=
  parse_number_trailing [] ['1', '2', '3'] ['a', 'b', 'c'] (Or.inl rfl) (by decide)
    (by decide) (by decide) (by decide) (by decide) (by decide)

/-- C4: on an input that is an optional sign followed by decimal digits whose
signed value lies outside the 32-bit `int` range, `parse_number` fails with
exactly "Out of range". -/
theorem parse_number_out_of_range (sgn ds : List Char)
    (hs : sgn = [] ∨ sgn = ['+'] ∨ sgn = ['-'])
    (hds : ds ≠ [])
    (hd : ∀ c ∈ ds, c.isDigit = true)
    (hv : signOf sgn * (digitsVal ds : Int) < int_min ∨
      int_max < signOf sgn * (digitsVal ds : Int)) :
    parse_number (sgn ++ ds) = (0, "Out of range") := by
  have hst := stoi_spec [] sgn ds [] (by simp) hs hds hd (by simp)
  rw [List.nil_append, List.append_nil] at hst
  simp [parse_number, hst, if_pos hv]

/-- Witness for C4 at the 30-digit input "999999999999999999999999999999". -/
theorem parse_number_out_of_range_witness :
    parse_number ([] ++ List.replicate 30 '9') = (0, "Out of range") :=
  parse_number_out_of_range [] (List.replicate 30 '9') (Or.inl rfl) (by decide) (by decide)
    (by decide)

/-- C10: on an input made of leading whitespace followed by an in-range
optional-sign-and-digits numeral and nothing else, `parse_number` succeeds
with that integer and an empty error, because the conversion skips the
whitespace and counts it as consumed. -/
theorem parse_number_leading_whitespace (ws sgn ds : List Char)
    (_hws0 : ws ≠ [])
    (hws : ∀ c ∈ ws, cppIsSpace c = true)
    (hs : sgn = [] ∨ sgn = ['+'] ∨ sgn = ['-'])
    (hds : ds ≠ [])
    (hd : ∀ c ∈ ds, c.isDigit = true)
    (hlo : int_min ≤ signOf sgn * (digitsVal ds : Int))
    (hhi : signOf sgn * (digitsVal ds : Int) ≤ int_max) :
    parse_number (ws ++ sgn ++ ds) = (signOf sgn * (digitsVal ds : Int), "") := by
  have hst := stoi_spec ws sgn ds [] hws hs hds hd (by simp)
  rw [List.append_nil] at hst
  have hnc : ¬(signOf sgn * (digitsVal ds : Int) < int_min ∨
      int_max < signOf sgn * (digitsVal ds : Int)) := by
    push_neg
    exact ⟨hlo, hhi⟩
  have hlen : ws.length + sgn.length + ds.length = (ws ++ sgn ++ ds).length := by
    simp only [List.length_append]
  simp only [parse_number, hst, if_neg hnc, if_neg (not_not_intro hlen)]

/-- Witness for C10 at the input " 42". -/
theorem parse_number_leading_whitespace_witness :
    parse_number ([' '] ++ [] ++ ['4', '2']) = (signOf [] * (digitsVal ['4', '2'] : Int), "") :=
  parse_number_leading_whitespace [' '] [] ['4', '2'] (by decide) (by decide) (Or.inl rfl)
    (by decide) (by decide) (by decide) (by decide)

/-- C8: every result of `parse_number` satisfies the ParseResult invariant:
exactly one of "the error text is empty" (success) or "the error text is
non-empty" (failure) holds, and in every failure case the stored value is
zero. -/
theorem parse_number_invariant (input : List Char) :
    Xor' ((parse_number input).2 = "") ((parse_number input).2 ≠ "") ∧
    ((parse_number input).2 ≠ "" → (parse_number input).1 = 0) := by
  constructor
  · by_cases h : (parse_number input).2 = ""
    · exact Or.inl ⟨h, by simp [h]⟩
    · exact Or.inr ⟨h, h⟩
  · intro herr
    rcases hst : stoi input with e | p
    · cases e <;> simp [parse_number, hst]
    · obtain ⟨v, pos⟩ := p
      by_cases hpos : pos ≠ input.length
      · simp [parse_number, hst, hpos]
      · simp [parse_number, hst, hpos] at herr ⊢

/-- Witness for C8 at the failing input "abc". -/
theorem parse_number_invariant_witness :
    (parse_number ['a', 'b', 'c']).2 ≠ "" ∧ (parse_number ['a', 'b', 'c']).1 = 0 :=
  ⟨by decide, (parse_number_invariant ['a', 'b', 'c']).2 (by decide)⟩

/-- C5: `has_error` holds exactly when the stored error text is non-empty;
`get_value` returns the stored integer when `has_error` is false, and throws
(modelled as `Except.error`, never an `Except.ok` sentinel) when `has_error`
is true. -/
theorem number_result_accessors (result : NumberResult) :
    (has_error result = true ↔ result.2 ≠ "") ∧
    (has_error result = false → get_value result = .ok result.1) ∧
    (has_error result = true → get_value result = .error result.2) ∧
    (has_error result = true → ∀ v, get_value result ≠ .ok v) := by
  refine ⟨?_, fun h => ?_, fun h => ?_, fun h v => ?_⟩
  · cases hb : result.2.isEmpty with
    | true =>
      have he : result.2 = "" := (String.isEmpty_iff result.2).mp hb
      simp only [has_error]
      rw [he]
      decide
    | false =>
      have he : result.2 ≠ "" := by
        intro he
        rw [he] at hb
        exact absurd hb (by decide)
      simp only [has_error, hb]
      simpa using he
  · simp [get_value, h]
  · simp [get_value, h]
  · simp [get_value, h]

/-- Witness for C5 at the failed result `(7, "Out of range")`. -/
theorem number_result_accessors_witness :
    (has_error ((7 : Int), "Out of range") = true ↔ ((7 : Int), "Out of range").2 ≠ "") ∧
    get_value ((7 : Int), "Out of range") = .error "Out of range" ∧
    ∀ v, get_value ((7 : Int), "Out of range") ≠ .ok v :=
  ⟨(number_result_accessors ((7 : Int), "Out of range")).1,
    (number_result_accessors ((7 : Int), "Out of range")).2.2.1 (by decide),
    (number_result_accessors ((7 : Int), "Out of range")).2.2.2 (by decide)⟩

/-! ### Container theorems -/

/-- C1: starting from any Container state (every state is reachable, since
states are exactly lists built by `add`), `contains v` returns `(true, i)`
for the smallest index `i` whose element equals `v` when one exists, returns
`(false, 0)` when no element equals `v`, and leaves the container's sequence
unchanged. -/
theorem Container.contains_first_occurrence {T : Type} [DecidableEq T]
    (c : Container T) (v : T) :
    (c.contains v).2 = c ∧
    (v ∈ c.data → ∃ i, (c.contains v).1 = (true, i) ∧ i < c.data.length ∧
      c.data.get? i = some v ∧ ∀ j, j < i → c.data.get? j ≠ some v) ∧
    (v ∉ c.data → (c.contains v).1 = (false, 0)) := by
  refine ⟨rfl, fun hmem => ?_, fun hmem => ?_⟩
  · obtain ⟨k, hk, hlen, hget, hmin⟩ := (containsAux_spec v c.data 0).1 hmem
    exact ⟨k, by simpa [Container.contains] using hk, hlen, hget, hmin⟩
  · simpa [Container.contains] using (containsAux_spec v c.data 0).2 hmem

/-- Witness for C1 at the container holding `[5, 3]` and the value `3`. -/
theorem Container.contains_first_occurrence_witness :
    ((Container.mk [5, 3] : Container Nat).contains 3).2 = Container.mk [5, 3] ∧
    (∃ i, ((Container.mk [5, 3] : Container Nat).contains 3).1 = (true, i) ∧
      i < ([5, 3] : List Nat).length ∧ ([5, 3] : List Nat).get? i = some 3 ∧
      ∀ j, j < i → ([5, 3] : List Nat).get? j ≠ some 3) :=
  ⟨(Container.contains_first_occurrence (Container.mk [5, 3]) 3).1,
    (Container.contains_first_occurrence (Container.mk [5, 3]) 3).2.1 (by decide)⟩

/-- C6: `add v` appends `v` at the end of the sequence, the length grows by
exactly one, and the first `n` elements of the new sequence are the old
sequence; `add` is a total function with no failure mode. -/
theorem Container.add_appends {T : Type} (c : Container T) (v : T) :
    (c.add v).data = c.data ++ [v] ∧
    (c.add v).data.length = c.data.length + 1 ∧
    (c.add v).data.take c.data.length = c.data := by
  exact ⟨rfl, by simp [Container.add], by simp [Container.add, List.take_left]⟩

/-! ### Demo driver theorems -/

/-- C7: from the seed list `["apple", "banana", "cherry"]`, the first
`add_if_not_exists "date"` returns `(3, true)`, a second one returns
`(3, false)`, after `transform_all "fruit: "` the list is the four prefixed
fruits, `get_at 1` is `some "fruit: banana"` and `get_at 10` is `none`. -/
theorem demo_scenario :
    (ModernCppDemo.mk ["apple", "banana", "cherry"]).add_if_not_exists "date" =
      ((3, true), ModernCppDemo.mk ["apple", "banana", "cherry", "date"]) ∧
    (ModernCppDemo.mk ["apple", "banana", "cherry", "date"]).add_if_not_exists "date" =
      ((3, false), ModernCppDemo.mk ["apple", "banana", "cherry", "date"]) ∧
    (ModernCppDemo.mk ["apple", "banana", "cherry", "date"]).transform_all "fruit: " =
      ModernCppDemo.mk ["fruit: apple", "fruit: banana", "fruit: cherry", "fruit: date"] ∧
    (ModernCppDemo.mk
      ["fruit: apple", "fruit: banana", "fruit: cherry", "fruit: date"]).get_at 1 =
      some "fruit: banana" ∧
    (ModernCppDemo.mk
      ["fruit: apple", "fruit: banana", "fruit: cherry", "fruit: date"]).get_at 10 = none := by
  refine ⟨?_, ?_, ?_, ?_, ?_⟩ <;> decide

/-- C9: when `item` already occurs in the demo list, `add_if_not_exists item`
returns the index of its first occurrence paired with `false` and leaves the
state completely unchanged (same length, same elements, same order). -/
theorem ModernCppDemo.add_if_not_exists_mem (d : ModernCppDemo) (item : String)
    (h : item ∈ d.data) :
    ∃ i, d.add_if_not_exists item = ((i, false), d) ∧ i < d.data.length ∧
      d.data.get? i = some item ∧ ∀ j, j < i → d.data.get? j ≠ some item := by
  obtain ⟨k, hk, hlen, hget, hmin⟩ := (containsAux_spec item d.data 0).1 h
  refine ⟨k, ?_, hlen, hget, hmin⟩
  simp only [ModernCppDemo.add_if_not_exists]
  rw [show containsAux item d.data 0 = (true, k) by simpa using hk]

/-- Witness for C9 at the list `["a", "b"]` and the already-present item
`"b"`. -/
theorem ModernCppDemo.add_if_not_exists_mem_witness :
    ∃ i, (ModernCppDemo.mk ["a", "b"]).add_if_not_exists "b" =
        ((i, false), ModernCppDemo.mk ["a", "b"]) ∧
      i < (["a", "b"] : List String).length ∧
      (["a", "b"] : List String).get? i = some "b" ∧
      ∀ j, j < i → (["a", "b"] : List String).get? j ≠ some "b" :=
  ModernCppDemo.add_if_not_exists_mem (ModernCppDemo.mk ["a", "b"]) "b" (by decide)

end CrossCompileCpp
